import Mathlib

/-!
Shallow embedding of the dbw rule/sequence engine
(src/include/dbw/RuleEngine.hpp, src/src/dbw/RuleEngine.cpp).

Time points and durations (`std::chrono::steady_clock::time_point`,
`std::chrono::milliseconds`) are modelled as integers; `double` signal and
condition values are modelled as exact rationals, so the comparison logic
(`compareDoubles` with its 1e-6 tolerance) acts on the stored values exactly
as written in the source.
-/

namespace Dbw

/-- Tag of a `Value` alternative (bool / double / string in the C++ variant). -/
inductive ValueTag where
  | vbool
  | vnum
  | vstr
deriving DecidableEq, Repr

/-- `using Value = std::variant<bool, double, std::string>` from RuleEngine.hpp. -/
inductive Value where
  | bool (b : Bool)
  | num (x : ℚ)
  | str (s : String)
deriving DecidableEq, Repr

/-- Which alternative a `Value` holds. -/
def Value.tag : Value → ValueTag
  | .bool _ => .vbool
  | .num _ => .vnum
  | .str _ => .vstr

/-- `enum class CompareOp { Eq, Ne, Gt, Lt, Ge, Le }` from RuleEngine.hpp. -/
inductive CompareOp where
  | eq
  | ne
  | gt
  | lt
  | ge
  | le
deriving DecidableEq, Repr

/-- `struct Condition` from RuleEngine.hpp. -/
structure Condition where
  signal : String
  op : CompareOp
  value : Value
deriving DecidableEq, Repr

/-- `using Step = std::variant<StepSet, StepWait>` from RuleEngine.hpp;
`StepWait::duration` is a millisecond count modelled as an integer. -/
inductive Step where
  | set (key : String) (value : Value)
  | wait (duration : Int)
deriving DecidableEq, Repr

/-- `struct Rule` from RuleEngine.hpp. -/
structure Rule where
  name : String
  trigger : String
  conditions : List Condition
  sequence : List Step
deriving DecidableEq, Repr

/-- `struct ActiveSequence` from RuleEngine.hpp; the C++ `const Rule*` borrow
is modelled as the rule value itself (rules are immutable after load). -/
structure ActiveSequence where
  rule : Rule
  stepIndex : Nat
  stepStarted : Int
  startedAt : Int
deriving DecidableEq, Repr

/-- The abstract `SignalProvider` interface: each typed accessor either
resolves the named signal or fails (`bool` return plus out-parameter in C++,
`Option` here). -/
structure SignalProvider where
  getNumber : String → Option ℚ
  getBool : String → Option Bool
  getString : String → Option String

/-- `class CommandBuffer`: a key-to-value mapping; `set` adds or overwrites. -/
structure CommandBuffer where
  commands : List (String × Value)
deriving DecidableEq, Repr

/-- `CommandBuffer::set`: adds or overwrites a key with a value. -/
def CommandBuffer.set (buf : CommandBuffer) (key : String) (value : Value) :
    CommandBuffer :=
  ⟨(key, value) :: buf.commands.filter (fun p => p.1 != key)⟩

/-- Lookup in the command buffer (the `commands()` map view). -/
def CommandBuffer.lookup (buf : CommandBuffer) (key : String) : Option Value :=
  (buf.commands.find? (fun p => p.1 == key)).map Prod.snd

/-- `compareDoubles` (RuleEngine.cpp lines 101-106): three-way comparison
with absolute tolerance `eps = 1e-6` on the difference `d = a - b` (the two
C++ locals are inlined here). -/
def compareDoubles (a b : ℚ) : Int :=
  if |a - b| ≤ 1 / 1000000 then 0
  else if a - b < 0 then -1 else 1

/-- `RuleEngine::compare` (RuleEngine.cpp lines 108-142). -/
def RuleEngine.compare (lhs : Value) (op : CompareOp) (rhs : Value) : Bool :=
  match lhs, rhs with
  | .bool a, .bool b =>
    match op with
    | .eq => a == b
    | .ne => a != b
    | _ => false
  | .num a, .num b =>
    let c := compareDoubles a b
    match op with
    | .eq => c == 0
    | .ne => c != 0
    | .gt => decide (c > 0)
    | .lt => decide (c < 0)
    | .ge => decide (c ≥ 0)
    | .le => decide (c ≤ 0)
  | .str a, .str b =>
    match op with
    | .eq => a == b
    | .ne => a != b
    | _ => false
  | _, _ => false

/-- `RuleEngine::evaluate` (RuleEngine.cpp lines 88-99): try a numeric read
when the expected value is numeric, then a boolean read, then a string read;
anything unresolved or tag-mismatched fails the condition. -/
def RuleEngine.evaluate (c : Condition) (signals : SignalProvider) : Bool :=
  match signals.getNumber c.signal, c.value with
  | some n, Value.num v => RuleEngine.compare (.num n) c.op (.num v)
  | _, _ =>
    match signals.getBool c.signal, c.value with
    | some b, Value.bool v => RuleEngine.compare (.bool b) c.op (.bool v)
    | _, _ =>
      match signals.getString c.signal, c.value with
      | some s, Value.str v => RuleEngine.compare (.str s) c.op (.str v)
      | _, _ => false

/-- `RuleEngine::conditionsSatisfied` (RuleEngine.cpp lines 81-86):
conjunction over the rule's conditions. -/
def RuleEngine.conditionsSatisfied (rule : Rule) (signals : SignalProvider) :
    Bool :=
  rule.conditions.all (fun c => RuleEngine.evaluate c signals)

/-- The engine state: the three data members of `class RuleEngine`
(RuleEngine.hpp lines 134-136): the installed rule list, the optional active
sequence, and the single optional pending-event slot. -/
structure RuleEngine where
  rules : List Rule
  active : Option ActiveSequence
  pendingEvent : Option String
deriving DecidableEq, Repr

/-- `RuleEngine::setRules` (RuleEngine.cpp lines 14-18): install the new
rule list, reset the active sequence and the pending event. -/
def RuleEngine.setRules (_e : RuleEngine) (rules : List Rule) : RuleEngine :=
  { rules := rules, active := none, pendingEvent := none }

/-- `RuleEngine::onEvent` (RuleEngine.cpp lines 20-22): store the event in
the single pending slot, overwriting any previous occupant. -/
def RuleEngine.onEvent (e : RuleEngine) (eventName : String) : RuleEngine :=
  { e with pendingEvent := some eventName }

/-- The rule-selection loop of `RuleEngine::tickAt` (RuleEngine.cpp lines
33-38): first rule in declaration order whose trigger matches the event and
whose guard passes now. -/
def RuleEngine.selectRule (rules : List Rule) (event : String)
    (signals : SignalProvider) : Option Rule :=
  rules.find?
    (fun r => r.trigger == event && RuleEngine.conditionsSatisfied r signals)

/-- The sequence-start phase of `RuleEngine::tickAt` (RuleEngine.cpp lines
30-39): if idle and an event is pending, consume the event and start the
first matching rule at step 0 with both timestamps set to `now`. -/
def RuleEngine.startPhase (e : RuleEngine) (signals : SignalProvider)
    (now : Int) : RuleEngine :=
  match e.active, e.pendingEvent with
  | none, some event =>
    match RuleEngine.selectRule e.rules event signals with
    | some r =>
      { e with pendingEvent := none,
               active := some { rule := r, stepIndex := 0,
                                stepStarted := now, startedAt := now } }
    | none => { e with pendingEvent := none }
  | _, _ => e

/-- `RuleEngine::advanceStep` (RuleEngine.cpp lines 159-166): increment the
step index, restart the step timer, and complete the sequence when the index
reaches the end. -/
def RuleEngine.advanceStep (a : ActiveSequence) (now : Int) :
    Option ActiveSequence :=
  let a' : ActiveSequence := { a with stepIndex := a.stepIndex + 1,
                                      stepStarted := now }
  if a'.rule.sequence.length ≤ a'.stepIndex then none else some a'

/-- The running-sequence phase of `RuleEngine::tickAt` (RuleEngine.cpp lines
41-69): re-check the guard, cancel on failure or out-of-range index, then
execute the current step (`get?` returning `none` is exactly the
`stepIndex >= size` defensive bound of lines 50-53). -/
def RuleEngine.runPhase (e : RuleEngine) (signals : SignalProvider)
    (out : CommandBuffer) (now : Int) : RuleEngine × CommandBuffer :=
  match e.active with
  | none => (e, out)
  | some a =>
    if RuleEngine.conditionsSatisfied a.rule signals then
      match a.rule.sequence.get? a.stepIndex with
      | some (Step.set key value) =>
        ({ e with active := RuleEngine.advanceStep a now }, out.set key value)
      | some (Step.wait d) =>
        if d ≤ now - a.stepStarted then
          ({ e with active := RuleEngine.advanceStep a now }, out)
        else (e, out)
      | none => ({ e with active := none }, out)
    else ({ e with active := none }, out)

/-- `RuleEngine::tickAt` (RuleEngine.cpp lines 28-69): start phase followed
by the running phase, all at the explicit timestamp `now`. -/
def RuleEngine.tickAt (e : RuleEngine) (signals : SignalProvider)
    (out : CommandBuffer) (now : Int) : RuleEngine × CommandBuffer :=
  RuleEngine.runPhase (RuleEngine.startPhase e signals now) signals out now

/-- `RuleEngine::activeRuleName` (RuleEngine.cpp lines 71-74). -/
def RuleEngine.activeRuleName (e : RuleEngine) : Option String :=
  e.active.map (fun a => a.rule.name)

/-- `RuleEngine::activeStepIndex` (RuleEngine.cpp lines 76-79). -/
def RuleEngine.activeStepIndex (e : RuleEngine) : Nat :=
  match e.active with
  | none => 0
  | some a => a.stepIndex

/-- Whether the provider resolves `name` at the given tag. -/
def resolvesAt (signals : SignalProvider) (name : String) : ValueTag → Bool
  | .vnum => (signals.getNumber name).isSome
  | .vbool => (signals.getBool name).isSome
  | .vstr => (signals.getString name).isSome

/-- The provider's read of `name` at the given tag, as a `Value`. -/
def readAt (signals : SignalProvider) (name : String) : ValueTag → Option Value
  | .vnum => (signals.getNumber name).map Value.num
  | .vbool => (signals.getBool name).map Value.bool
  | .vstr => (signals.getString name).map Value.str

/-! ## Auxiliary lemmas -/

theorem startPhase_running (e : RuleEngine) (sp : SignalProvider) (now : Int)
    (a : ActiveSequence) (h : e.active = some a) :
    e.startPhase sp now = e := by
  unfold RuleEngine.startPhase
  rw [h]

theorem startPhase_quiet (e : RuleEngine) (sp : SignalProvider) (now : Int)
    (h : e.pendingEvent = none) :
    e.startPhase sp now = e := by
  unfold RuleEngine.startPhase
  rw [h]
  cases e.active <;> rfl

theorem startPhase_idle_event (e : RuleEngine) (sp : SignalProvider)
    (now : Int) (ev : String)
    (hIdle : e.active = none) (hEv : e.pendingEvent = some ev) :
    e.startPhase sp now =
      match RuleEngine.selectRule e.rules ev sp with
      | some r =>
        { e with pendingEvent := none,
                 active := some { rule := r, stepIndex := 0,
                                  stepStarted := now, startedAt := now } }
      | none => { e with pendingEvent := none } := by
  unfold RuleEngine.startPhase
  rw [hIdle, hEv]

theorem runPhase_pendingEvent (e : RuleEngine) (sp : SignalProvider)
    (out : CommandBuffer) (now : Int) :
    ((e.runPhase sp out now).1).pendingEvent = e.pendingEvent := by
  unfold RuleEngine.runPhase
  cases h : e.active with
  | none => rfl
  | some a =>
    by_cases hc : RuleEngine.conditionsSatisfied a.rule sp
    · simp only [hc, if_true]
      cases hs : a.rule.sequence.get? a.stepIndex with
      | none => rfl
      | some s =>
        cases s with
        | set key value => rfl
        | wait d =>
          by_cases ht : d ≤ now - a.stepStarted
          · simp only [ht, if_true]
          · simp only [ht, if_false]
    · simp [hc]

theorem runPhase_idle (e : RuleEngine) (sp : SignalProvider)
    (out : CommandBuffer) (now : Int) (h : e.active = none) :
    e.runPhase sp out now = (e, out) := by
  unfold RuleEngine.runPhase
  rw [h]

theorem selectRule_eq_none (rules : List Rule) (ev : String)
    (sp : SignalProvider)
    (h : ∀ r ∈ rules,
      ¬(r.trigger = ev ∧ RuleEngine.conditionsSatisfied r sp = true)) :
    RuleEngine.selectRule rules ev sp = none := by
  unfold RuleEngine.selectRule
  rw [List.find?_eq_none]
  intro r hr
  simp only [Bool.and_eq_true, beq_iff_eq]
  exact fun hc => h r hr hc

theorem runPhase_running (e : RuleEngine) (sp : SignalProvider)
    (out : CommandBuffer) (now : Int) (a : ActiveSequence)
    (h : e.active = some a) :
    e.runPhase sp out now =
      if RuleEngine.conditionsSatisfied a.rule sp then
        match a.rule.sequence.get? a.stepIndex with
        | some (Step.set key value) =>
          ({ e with active := RuleEngine.advanceStep a now },
            out.set key value)
        | some (Step.wait d) =>
          if d ≤ now - a.stepStarted then
            ({ e with active := RuleEngine.advanceStep a now }, out)
          else (e, out)
        | none => ({ e with active := none }, out)
      else ({ e with active := none }, out) := by
  unfold RuleEngine.runPhase
  rw [h]

theorem advanceStep_some (a : ActiveSequence) (now : Int)
    (a' : ActiveSequence) (h : RuleEngine.advanceStep a now = some a') :
    a'.stepIndex = a.stepIndex + 1 ∧ a'.stepStarted = now ∧
      a'.rule = a.rule ∧ a'.startedAt = a.startedAt := by
  simp only [RuleEngine.advanceStep] at h
  split at h
  · exact absurd h (by simp)
  · cases h
    exact ⟨rfl, rfl, rfl, rfl⟩

theorem compareDoubles_eq_zero_iff (a b : ℚ) :
    compareDoubles a b = 0 ↔ |a - b| ≤ 1 / 1000000 := by
  unfold compareDoubles
  split
  · rename_i h
    exact iff_of_true rfl h
  · rename_i h
    split <;> exact iff_of_false (by decide) h

theorem compareDoubles_of_big (a b : ℚ) (h : 1 / 1000000 < a - b) :
    compareDoubles a b = 1 := by
  have h1 : ¬ |a - b| ≤ 1 / 1000000 := by
    intro hc
    rw [abs_le] at hc
    linarith
  have h2 : ¬ a - b < 0 := by
    have : (0 : ℚ) < 1 / 1000000 := by norm_num
    linarith
  unfold compareDoubles
  rw [if_neg h1, if_neg h2]

theorem compareDoubles_of_small (a b : ℚ) (h : a - b < -(1 / 1000000)) :
    compareDoubles a b = -1 := by
  have h1 : ¬ |a - b| ≤ 1 / 1000000 := by
    intro hc
    rw [abs_le] at hc
    linarith
  have h2 : a - b < 0 := by
    have : (0 : ℚ) < 1 / 1000000 := by norm_num
    linarith
  unfold compareDoubles
  rw [if_neg h1, if_pos h2]

/-! ## Concrete fixtures used by the witnesses -/

/-- A provider that resolves no signal at all. -/
def spEmpty : SignalProvider :=
  { getNumber := fun _ => none, getBool := fun _ => none,
    getString := fun _ => none }

/-- An unguarded one-step rule. -/
def ruleOne : Rule :=
  { name := "enter", trigger := "go", conditions := [],
    sequence := [Step.set "AS_AutoD_Req" (Value.num 1)] }

/-- A rule guarded on a string signal. -/
def ruleGuarded : Rule :=
  { name := "guarded", trigger := "tg",
    conditions :=
      [{ signal := "gear", op := CompareOp.eq, value := Value.str "P" }],
    sequence := [Step.set "k" (Value.num 2)] }

/-- A rule that waits 200 ms before a final set. -/
def ruleWaiter : Rule :=
  { name := "waiter", trigger := "tw", conditions := [],
    sequence := [Step.wait 200, Step.set "k" (Value.num 1)] }

/-- A rule with an empty step sequence. -/
def ruleEmpty : Rule :=
  { name := "empty", trigger := "te", conditions := [], sequence := [] }

/-- An empty command buffer. -/
def bufEmpty : CommandBuffer := { commands := [] }

/-- An engine with no rules and nothing pending. -/
def engEmpty : RuleEngine :=
  { rules := [], active := none, pendingEvent := none }

/-! ## The claims -/

/-- C1: On a tick where no sequence is active and an event is pending, the
engine dequeues the event (it is consumed and never retried on a later
tick); the start phase scans the rules in declaration order and activates
exactly the first rule whose trigger equals the event and whose guard passes
under the current signals, entering Running with step index 0 and both the
sequence-start and step-start timestamps set to `now`; if no rule matches,
the whole tick leaves the engine Idle with the event discarded and the
command buffer untouched. -/
theorem c1_idle_event_selection (e : RuleEngine) (sp : SignalProvider)
    (out : CommandBuffer) (now : Int) (ev : String)
    (hIdle : e.active = none) (hEv : e.pendingEvent = some ev) :
    ((e.tickAt sp out now).1.pendingEvent = none) ∧
    ((e.startPhase sp now).active =
      (RuleEngine.selectRule e.rules ev sp).map
        (fun r => { rule := r, stepIndex := 0, stepStarted := now,
                    startedAt := now })) ∧
    ((∀ r ∈ e.rules,
        ¬(r.trigger = ev ∧ RuleEngine.conditionsSatisfied r sp = true)) →
      e.tickAt sp out now = ({ e with pendingEvent := none }, out)) := by
  have hsp := startPhase_idle_event e sp now ev hIdle hEv
  refine ⟨?_, ?_, ?_⟩
  · unfold RuleEngine.tickAt
    rw [runPhase_pendingEvent, hsp]
    cases RuleEngine.selectRule e.rules ev sp <;> rfl
  · rw [hsp]
    cases RuleEngine.selectRule e.rules ev sp with
    | none => simpa using hIdle
    | some r => rfl
  · intro hnone
    have hsel := selectRule_eq_none e.rules ev sp hnone
    rw [hsel] at hsp
    unfold RuleEngine.tickAt
    rw [hsp]
    exact runPhase_idle _ sp out now hIdle

/-- C1 witness: a concrete idle engine with one matching unguarded rule and
the event `go` pending, ticked at time 0. -/
theorem c1_witness :
    ((RuleEngine.tickAt
        { rules := [ruleOne], active := none, pendingEvent := some "go" }
        spEmpty bufEmpty 0).1.pendingEvent = none) ∧
    ((RuleEngine.startPhase
        { rules := [ruleOne], active := none, pendingEvent := some "go" }
        spEmpty 0).active =
      (RuleEngine.selectRule
          (RuleEngine.rules
            { rules := [ruleOne], active := none, pendingEvent := some "go" })
          "go" spEmpty).map
        (fun r => { rule := r, stepIndex := 0, stepStarted := 0,
                    startedAt := 0 })) ∧
    ((∀ r ∈ RuleEngine.rules
        { rules := [ruleOne], active := none, pendingEvent := some "go" },
        ¬(r.trigger = "go" ∧
            RuleEngine.conditionsSatisfied r spEmpty = true)) →
      RuleEngine.tickAt
          { rules := [ruleOne], active := none, pendingEvent := some "go" }
          spEmpty bufEmpty 0 =
        ({ rules := [ruleOne], active := none, pendingEvent := none },
          bufEmpty)) :=
  c1_idle_event_selection
    { rules := [ruleOne], active := none, pendingEvent := some "go" }
    spEmpty bufEmpty 0 "go" rfl rfl

/-- C2: While Running, the tick re-evaluates the active rule's guard before
any step work; if the guard fails, that very tick discards the sequence and
emits nothing (the buffer is returned unchanged), `activeRuleName` is `none`
from then on, and — with no event pending — every later tick from the
resulting Idle state emits nothing and stays Idle, so no further command
from the discarded sequence ever appears. -/
theorem c2_guard_failure_cancels (e : RuleEngine) (sp : SignalProvider)
    (out : CommandBuffer) (now : Int) (a : ActiveSequence)
    (hRun : e.active = some a)
    (hFail : RuleEngine.conditionsSatisfied a.rule sp = false) :
    (e.tickAt sp out now = ({ e with active := none }, out)) ∧
    ((e.tickAt sp out now).1.activeRuleName = none) ∧
    (e.pendingEvent = none →
      ∀ sp' out' now',
        RuleEngine.tickAt { e with active := none } sp' out' now' =
          ({ e with active := none }, out')) := by
  have htick : e.tickAt sp out now = ({ e with active := none }, out) := by
    unfold RuleEngine.tickAt
    rw [startPhase_running e sp now a hRun,
        runPhase_running e sp out now a hRun]
    simp [hFail]
  refine ⟨htick, ?_, ?_⟩
  · rw [htick]
    rfl
  · intro hpe sp' out' now'
    unfold RuleEngine.tickAt
    rw [startPhase_quiet { e with active := none } sp' now' hpe]
    exact runPhase_idle _ sp' out' now' rfl

/-- C2 witness: a concrete engine running a rule guarded on a signal the
provider does not resolve, so the guard fails on the tick. -/
theorem c2_witness :
    (RuleEngine.tickAt
        { rules := [ruleGuarded],
          active := some { rule := ruleGuarded, stepIndex := 0,
                           stepStarted := 0, startedAt := 0 },
          pendingEvent := none }
        spEmpty bufEmpty 5 =
      ({ rules := [ruleGuarded], active := none, pendingEvent := none },
        bufEmpty)) ∧
    ((RuleEngine.tickAt
        { rules := [ruleGuarded],
          active := some { rule := ruleGuarded, stepIndex := 0,
                           stepStarted := 0, startedAt := 0 },
          pendingEvent := none }
        spEmpty bufEmpty 5).1.activeRuleName = none) := by
  have h := c2_guard_failure_cancels
    { rules := [ruleGuarded],
      active := some { rule := ruleGuarded, stepIndex := 0,
                       stepStarted := 0, startedAt := 0 },
      pendingEvent := none }
    spEmpty bufEmpty 5
    { rule := ruleGuarded, stepIndex := 0, stepStarted := 0, startedAt := 0 }
    rfl rfl
  exact ⟨h.1, h.2.1⟩

/-- C7: `setRules` installs the new rule set and resets both the active
sequence and the pending event: immediately afterwards `activeRuleName` is
`none` and nothing is pending, a tick from that state changes nothing and
emits nothing, and any sequence started after a later `onEvent` runs a rule
belonging to the newly installed set. -/
theorem c7_setRules_resets (e : RuleEngine) (rules : List Rule) :
    ((e.setRules rules).activeRuleName = none) ∧
    ((e.setRules rules).pendingEvent = none) ∧
    ((e.setRules rules).rules = rules) ∧
    (∀ sp out now,
      (e.setRules rules).tickAt sp out now = (e.setRules rules, out)) ∧
    (∀ ev sp now a,
      (((e.setRules rules).onEvent ev).startPhase sp now).active = some a →
      a.rule ∈ rules) := by
  refine ⟨rfl, rfl, rfl, fun sp out now => rfl, ?_⟩
  intro ev sp now a h
  have hsp := startPhase_idle_event ((e.setRules rules).onEvent ev)
    sp now ev rfl rfl
  rw [hsp] at h
  cases hf : RuleEngine.selectRule ((e.setRules rules).onEvent ev).rules
      ev sp with
  | none =>
    rw [hf] at h
    exact absurd h (by simp [RuleEngine.onEvent, RuleEngine.setRules])
  | some r =>
    rw [hf] at h
    have h2 : some { rule := r, stepIndex := 0, stepStarted := now,
                     startedAt := now } = some a := h
    cases h2
    unfold RuleEngine.selectRule at hf
    exact List.mem_of_find?_eq_some hf

/-- C7 witness: replacing the rule set of an engine that is mid-sequence
with an event pending, at concrete values. -/
theorem c7_witness :
    ((RuleEngine.setRules
        { rules := [ruleOne],
          active := some { rule := ruleOne, stepIndex := 0,
                           stepStarted := 0, startedAt := 0 },
          pendingEvent := some "go" }
        [ruleGuarded]).activeRuleName = none) ∧
    ((RuleEngine.setRules
        { rules := [ruleOne],
          active := some { rule := ruleOne, stepIndex := 0,
                           stepStarted := 0, startedAt := 0 },
          pendingEvent := some "go" }
        [ruleGuarded]).pendingEvent = none) ∧
    (RuleEngine.tickAt
        (RuleEngine.setRules
          { rules := [ruleOne],
            active := some { rule := ruleOne, stepIndex := 0,
                             stepStarted := 0, startedAt := 0 },
            pendingEvent := some "go" }
          [ruleGuarded])
        spEmpty bufEmpty 7 =
      (RuleEngine.setRules
          { rules := [ruleOne],
            active := some { rule := ruleOne, stepIndex := 0,
                             stepStarted := 0, startedAt := 0 },
            pendingEvent := some "go" }
          [ruleGuarded],
        bufEmpty)) := by
  have h := c7_setRules_resets
    { rules := [ruleOne],
      active := some { rule := ruleOne, stepIndex := 0,
                       stepStarted := 0, startedAt := 0 },
      pendingEvent := some "go" }
    [ruleGuarded]
  exact ⟨h.1, h.2.1, h.2.2.2.1 spEmpty bufEmpty 7⟩

/-- C8 counterexample: the pending-event store is a single
`Option String` slot, so submitting `"a"` and then `"b"` before any tick
leaves the engine in exactly the state produced by submitting `"b"` alone —
the earlier event `"a"` is discarded, refuting the claim that every
submitted event is retained in a first-in-first-out queue. -/
theorem c8_counterexample :
    (((engEmpty.onEvent "a").onEvent "b").pendingEvent = some "b") ∧
    ((engEmpty.onEvent "a").onEvent "b" = engEmpty.onEvent "b") :=
  ⟨rfl, rfl⟩

/-- C8 (amended): pending events occupy a single slot, not a queue:
`onEvent` stores the submitted event as the sole pending event, overwriting
any earlier still-pending one (last-write-wins), and touches neither the
rule list nor the active sequence; at most one event is ever pending. -/
theorem c8_single_pending_slot (e : RuleEngine) (ev : String) :
    ((e.onEvent ev).pendingEvent = some ev) ∧
    ((e.onEvent ev).rules = e.rules) ∧
    ((e.onEvent ev).active = e.active) :=
  ⟨rfl, rfl, rfl⟩

/-- C3: When the current step of a Running sequence is `Wait` with duration
`d`, a tick at time `now` leaves the whole engine state and the buffer
unchanged while `now - stepStarted < d` (elapsed time is measured from the
step-start timestamp, not from sequence start), and advances the step on the
first tick with `d ≤ now - stepStarted`: the index grows by one with `now`
recorded as the new step start when a later step exists, and the sequence
completes otherwise; no command is emitted in either case. -/
theorem c3_wait_step (e : RuleEngine) (sp : SignalProvider)
    (out : CommandBuffer) (now : Int) (a : ActiveSequence) (d : Int)
    (hRun : e.active = some a)
    (hGuard : RuleEngine.conditionsSatisfied a.rule sp = true)
    (hStep : a.rule.sequence.get? a.stepIndex = some (Step.wait d)) :
    (now - a.stepStarted < d → e.tickAt sp out now = (e, out)) ∧
    (d ≤ now - a.stepStarted →
      (e.tickAt sp out now =
        ({ e with active := RuleEngine.advanceStep a now }, out)) ∧
      (a.stepIndex + 1 < a.rule.sequence.length →
        RuleEngine.advanceStep a now =
          some { a with stepIndex := a.stepIndex + 1, stepStarted := now }) ∧
      (a.rule.sequence.length ≤ a.stepIndex + 1 →
        RuleEngine.advanceStep a now = none)) := by
  constructor
  · intro hlt
    have hn : ¬ d ≤ now - a.stepStarted := by omega
    unfold RuleEngine.tickAt
    rw [startPhase_running e sp now a hRun,
        runPhase_running e sp out now a hRun, hGuard, hStep]
    simp [hn]
  · intro hge
    refine ⟨?_, ?_, ?_⟩
    · unfold RuleEngine.tickAt
      rw [startPhase_running e sp now a hRun,
          runPhase_running e sp out now a hRun, hGuard, hStep]
      simp [hge]
    · intro hlen
      have hn : ¬ a.rule.sequence.length ≤ a.stepIndex + 1 := by omega
      simp [RuleEngine.advanceStep, hn]
    · intro hlen
      simp [RuleEngine.advanceStep, hlen]

/-- C3 witness: the 200 ms wait rule mid-sequence, started at time 0 and
ticked at time 100 (not yet elapsed) — the engine and buffer are unchanged;
the advance facts are instantiated at the same state. -/
theorem c3_witness :
    ((100 : Int) - 0 < 200 →
      RuleEngine.tickAt
          { rules := [ruleWaiter],
            active := some { rule := ruleWaiter, stepIndex := 0,
                             stepStarted := 0, startedAt := 0 },
            pendingEvent := none }
          spEmpty bufEmpty 100 =
        ({ rules := [ruleWaiter],
           active := some { rule := ruleWaiter, stepIndex := 0,
                            stepStarted := 0, startedAt := 0 },
           pendingEvent := none },
          bufEmpty)) ∧
    ((200 : Int) ≤ 100 - 0 →
      (RuleEngine.tickAt
          { rules := [ruleWaiter],
            active := some { rule := ruleWaiter, stepIndex := 0,
                             stepStarted := 0, startedAt := 0 },
            pendingEvent := none }
          spEmpty bufEmpty 100 =
        ({ rules := [ruleWaiter],
           active := RuleEngine.advanceStep
             { rule := ruleWaiter, stepIndex := 0,
               stepStarted := 0, startedAt := 0 } 100,
           pendingEvent := none },
          bufEmpty)) ∧
      (0 + 1 < ruleWaiter.sequence.length →
        RuleEngine.advanceStep
            { rule := ruleWaiter, stepIndex := 0,
              stepStarted := 0, startedAt := 0 } 100 =
          some { rule := ruleWaiter, stepIndex := 0 + 1,
                 stepStarted := 100, startedAt := 0 }) ∧
      (ruleWaiter.sequence.length ≤ 0 + 1 →
        RuleEngine.advanceStep
            { rule := ruleWaiter, stepIndex := 0,
              stepStarted := 0, startedAt := 0 } 100 = none)) :=
  c3_wait_step
    { rules := [ruleWaiter],
      active := some { rule := ruleWaiter, stepIndex := 0,
                       stepStarted := 0, startedAt := 0 },
      pendingEvent := none }
    spEmpty bufEmpty 100
    { rule := ruleWaiter, stepIndex := 0, stepStarted := 0, startedAt := 0 }
    200 rfl rfl rfl

/-- C4: When the current step of a Running sequence is `Set key value`, the
tick writes exactly that pair into the command buffer (overwriting any prior
binding of the key), advances the step index by one with `now` recorded as
the new step-start timestamp, and does nothing further that tick — so at
most one Set command enters the buffer per tick and two consecutive Set
steps never both fire within a single tick. -/
theorem c4_set_step (e : RuleEngine) (sp : SignalProvider)
    (out : CommandBuffer) (now : Int) (a : ActiveSequence)
    (key : String) (value : Value)
    (hRun : e.active = some a)
    (hGuard : RuleEngine.conditionsSatisfied a.rule sp = true)
    (hStep : a.rule.sequence.get? a.stepIndex = some (Step.set key value)) :
    (e.tickAt sp out now =
      ({ e with active := RuleEngine.advanceStep a now },
        out.set key value)) ∧
    ((out.set key value).lookup key = some value) ∧
    (∀ a', RuleEngine.advanceStep a now = some a' →
      a'.stepIndex = a.stepIndex + 1 ∧ a'.stepStarted = now ∧
        a'.rule = a.rule) := by
  refine ⟨?_, ?_, ?_⟩
  · unfold RuleEngine.tickAt
    rw [startPhase_running e sp now a hRun,
        runPhase_running e sp out now a hRun, hGuard, hStep]
    rfl
  · unfold CommandBuffer.set CommandBuffer.lookup
    rw [List.find?_cons_of_pos _ (by simp)]
    rfl
  · intro a' h
    obtain ⟨h1, h2, h3, _⟩ := advanceStep_some a now a' h
    exact ⟨h1, h2, h3⟩

/-- C4 witness: the unguarded one-step rule mid-sequence at step 0, ticked
at time 3 — the single Set command lands in the buffer and the sequence
advances. -/
theorem c4_witness :
    (RuleEngine.tickAt
        { rules := [ruleOne],
          active := some { rule := ruleOne, stepIndex := 0,
                           stepStarted := 0, startedAt := 0 },
          pendingEvent := none }
        spEmpty bufEmpty 3 =
      ({ rules := [ruleOne],
         active := RuleEngine.advanceStep
           { rule := ruleOne, stepIndex := 0,
             stepStarted := 0, startedAt := 0 } 3,
         pendingEvent := none },
        bufEmpty.set "AS_AutoD_Req" (Value.num 1))) ∧
    ((bufEmpty.set "AS_AutoD_Req" (Value.num 1)).lookup "AS_AutoD_Req" =
      some (Value.num 1)) ∧
    (∀ a', RuleEngine.advanceStep
        { rule := ruleOne, stepIndex := 0,
          stepStarted := 0, startedAt := 0 } 3 = some a' →
      a'.stepIndex = 0 + 1 ∧ a'.stepStarted = 3 ∧ a'.rule = ruleOne) :=
  c4_set_step
    { rules := [ruleOne],
      active := some { rule := ruleOne, stepIndex := 0,
                       stepStarted := 0, startedAt := 0 },
      pendingEvent := none }
    spEmpty bufEmpty 3
    { rule := ruleOne, stepIndex := 0, stepStarted := 0, startedAt := 0 }
    "AS_AutoD_Req" (Value.num 1) rfl rfl rfl

/-- C9: The active step index never decreases: on any tick of an engine
whose active sequence is `a`, if a sequence is still active after the tick
then it is the same rule and its step index is at least `a`'s — no
operation ever lowers the index of a live sequence. -/
theorem c9_step_index_monotone (e : RuleEngine) (sp : SignalProvider)
    (out : CommandBuffer) (now : Int) (a : ActiveSequence)
    (hRun : e.active = some a) :
    ∀ a', ((e.tickAt sp out now).1).active = some a' →
      a.stepIndex ≤ a'.stepIndex ∧ a'.rule = a.rule := by
  intro a' h
  unfold RuleEngine.tickAt at h
  rw [startPhase_running e sp now a hRun,
      runPhase_running e sp out now a hRun] at h
  by_cases hg : RuleEngine.conditionsSatisfied a.rule sp
  · rw [if_pos hg] at h
    cases hs : a.rule.sequence.get? a.stepIndex with
    | none =>
      rw [hs] at h
      exact absurd h (by simp)
    | some s =>
      rw [hs] at h
      cases s with
      | set key value =>
        have h2 : RuleEngine.advanceStep a now = some a' := h
        obtain ⟨h1, _, h3, _⟩ := advanceStep_some a now a' h2
        exact ⟨by omega, h3⟩
      | wait d =>
        have h3 : (if d ≤ now - a.stepStarted then
            ({ e with active := RuleEngine.advanceStep a now }, out)
          else (e, out)).1.active = some a' := h
        by_cases ht : d ≤ now - a.stepStarted
        · rw [if_pos ht] at h3
          have h2 : RuleEngine.advanceStep a now = some a' := h3
          obtain ⟨h1, _, hr, _⟩ := advanceStep_some a now a' h2
          exact ⟨by omega, hr⟩
        · rw [if_neg ht] at h3
          have h2 : some a = some a' := by rw [← hRun]; exact h3
          cases h2
          exact ⟨le_refl _, rfl⟩
  · rw [if_neg hg] at h
    exact absurd h (by simp)

/-- C9 witness: the waiting engine at tick time 100 (wait not elapsed):
the sequence stays at the same step index of the same rule. -/
theorem c9_witness :
    ActiveSequence.stepIndex
        { rule := ruleWaiter, stepIndex := 0, stepStarted := 0,
          startedAt := 0 } ≤
      ActiveSequence.stepIndex
        { rule := ruleWaiter, stepIndex := 0, stepStarted := 0,
          startedAt := 0 } ∧
    ActiveSequence.rule
        { rule := ruleWaiter, stepIndex := 0, stepStarted := 0,
          startedAt := 0 } =
      ActiveSequence.rule
        { rule := ruleWaiter, stepIndex := 0, stepStarted := 0,
          startedAt := 0 } :=
  c9_step_index_monotone
    { rules := [ruleWaiter],
      active := some { rule := ruleWaiter, stepIndex := 0,
                       stepStarted := 0, startedAt := 0 },
      pendingEvent := none }
    spEmpty bufEmpty 100
    { rule := ruleWaiter, stepIndex := 0, stepStarted := 0, startedAt := 0 }
    rfl
    { rule := ruleWaiter, stepIndex := 0, stepStarted := 0, startedAt := 0 }
    (by decide)

/-- C10: If a pending event selects a rule whose step sequence is empty,
the very tick that selected it returns the engine to Idle with no command
emitted; likewise, whenever a Running sequence's step index is at or past
the end of its rule's sequence, the tick cancels to Idle without touching
the buffer — afterwards `activeRuleName` is `none` and the command buffer
has gained no entry. -/
theorem c10_empty_sequence_idles :
    (∀ (e : RuleEngine) (sp : SignalProvider) (out : CommandBuffer)
        (now : Int) (ev : String) (r : Rule),
      e.active = none → e.pendingEvent = some ev →
      RuleEngine.selectRule e.rules ev sp = some r → r.sequence = [] →
      e.tickAt sp out now =
        ({ e with active := none, pendingEvent := none }, out) ∧
      ((e.tickAt sp out now).1).activeRuleName = none) ∧
    (∀ (e : RuleEngine) (sp : SignalProvider) (out : CommandBuffer)
        (now : Int) (a : ActiveSequence),
      e.active = some a →
      RuleEngine.conditionsSatisfied a.rule sp = true →
      a.rule.sequence.length ≤ a.stepIndex →
      e.tickAt sp out now = ({ e with active := none }, out) ∧
      ((e.tickAt sp out now).1).activeRuleName = none) := by
  constructor
  · intro e sp out now ev r hIdle hEv hFind hEmpty
    have hsp := startPhase_idle_event e sp now ev hIdle hEv
    rw [hFind] at hsp
    have hsp2 : e.startPhase sp now =
        { e with pendingEvent := none,
                 active := some { rule := r, stepIndex := 0,
                                  stepStarted := now, startedAt := now } } :=
      hsp
    have hcond : RuleEngine.conditionsSatisfied r sp = true := by
      unfold RuleEngine.selectRule at hFind
      have hp := List.find?_some hFind
      simp only [Bool.and_eq_true] at hp
      exact hp.2
    have htick : e.tickAt sp out now =
        ({ e with active := none, pendingEvent := none }, out) := by
      unfold RuleEngine.tickAt
      rw [hsp2,
          runPhase_running
            { e with pendingEvent := none,
                     active := some { rule := r, stepIndex := 0,
                                      stepStarted := now, startedAt := now } }
            sp out now
            { rule := r, stepIndex := 0, stepStarted := now,
              startedAt := now }
            rfl]
      simp [hcond, hEmpty]
    exact ⟨htick, by rw [htick]; rfl⟩
  · intro e sp out now a hRun hGuard hLen
    have hget : a.rule.sequence.get? a.stepIndex = none :=
      List.get?_eq_none.mpr hLen
    have htick : e.tickAt sp out now = ({ e with active := none }, out) := by
      unfold RuleEngine.tickAt
      rw [startPhase_running e sp now a hRun,
          runPhase_running e sp out now a hRun, hGuard, hget]
      rfl
    exact ⟨htick, by rw [htick]; rfl⟩

/-- C10 witness: a pending event that selects the empty-sequence rule at
tick time 9 — the same tick returns to Idle with the buffer untouched. -/
theorem c10_witness :
    RuleEngine.tickAt
        { rules := [ruleEmpty], active := none, pendingEvent := some "te" }
        spEmpty bufEmpty 9 =
      ({ rules := [ruleEmpty], active := none, pendingEvent := none },
        bufEmpty) ∧
    ((RuleEngine.tickAt
        { rules := [ruleEmpty], active := none, pendingEvent := some "te" }
        spEmpty bufEmpty 9).1).activeRuleName = none :=
  c10_empty_sequence_idles.1
    { rules := [ruleEmpty], active := none, pendingEvent := some "te" }
    spEmpty bufEmpty 9 "te" ruleEmpty rfl rfl (by decide) rfl

/-- C5: `compare` yields `false` for every operator on mismatched tags; for
two booleans and for two texts every ordering operator yields `false`; for
two numbers equality holds exactly when `|a - b| ≤ 1e-6`, inequality is its
Boolean negation, and once the difference is outside the tolerance the
ordering operators are decided by its sign. (`compare` is a total Lean
function, so it never raises an error.) -/
theorem c5_compare_semantics :
    (∀ (l r : Value) (op : CompareOp),
      l.tag ≠ r.tag → RuleEngine.compare l op r = false) ∧
    (∀ (a b : Bool) (op : CompareOp),
      (op = CompareOp.gt ∨ op = CompareOp.lt ∨ op = CompareOp.ge ∨
        op = CompareOp.le) →
      RuleEngine.compare (.bool a) op (.bool b) = false) ∧
    (∀ (a b : String) (op : CompareOp),
      (op = CompareOp.gt ∨ op = CompareOp.lt ∨ op = CompareOp.ge ∨
        op = CompareOp.le) →
      RuleEngine.compare (.str a) op (.str b) = false) ∧
    (∀ a b : ℚ,
      (RuleEngine.compare (.num a) .eq (.num b) = true ↔
        |a - b| ≤ 1 / 1000000) ∧
      (RuleEngine.compare (.num a) .ne (.num b) =
        !RuleEngine.compare (.num a) .eq (.num b)) ∧
      (1 / 1000000 < a - b →
        RuleEngine.compare (.num a) .gt (.num b) = true ∧
        RuleEngine.compare (.num a) .ge (.num b) = true ∧
        RuleEngine.compare (.num a) .lt (.num b) = false ∧
        RuleEngine.compare (.num a) .le (.num b) = false) ∧
      (a - b < -(1 / 1000000) →
        RuleEngine.compare (.num a) .lt (.num b) = true ∧
        RuleEngine.compare (.num a) .le (.num b) = true ∧
        RuleEngine.compare (.num a) .gt (.num b) = false ∧
        RuleEngine.compare (.num a) .ge (.num b) = false)) := by
  refine ⟨?_, ?_, ?_, ?_⟩
  · intro l r op h
    cases l <;> cases r <;> first
      | rfl
      | exact absurd rfl h
  · intro a b op h
    rcases h with h | h | h | h <;> subst h <;> rfl
  · intro a b op h
    rcases h with h | h | h | h <;> subst h <;> rfl
  · intro a b
    refine ⟨?_, rfl, ?_, ?_⟩
    · show (compareDoubles a b == 0) = true ↔ |a - b| ≤ 1 / 1000000
      rw [beq_iff_eq]
      exact compareDoubles_eq_zero_iff a b
    · intro h
      have hc := compareDoubles_of_big a b h
      refine ⟨?_, ?_, ?_, ?_⟩
      · show decide (compareDoubles a b > 0) = true
        rw [hc]; rfl
      · show decide (compareDoubles a b ≥ 0) = true
        rw [hc]; rfl
      · show decide (compareDoubles a b < 0) = false
        rw [hc]; rfl
      · show decide (compareDoubles a b ≤ 0) = false
        rw [hc]; rfl
    · intro h
      have hc := compareDoubles_of_small a b h
      refine ⟨?_, ?_, ?_, ?_⟩
      · show decide (compareDoubles a b < 0) = true
        rw [hc]; rfl
      · show decide (compareDoubles a b ≤ 0) = true
        rw [hc]; rfl
      · show decide (compareDoubles a b > 0) = false
        rw [hc]; rfl
      · show decide (compareDoubles a b ≥ 0) = false
        rw [hc]; rfl

/-- C5 witness: concrete instances — a tag mismatch, a boolean ordering, a
text ordering, and two numbers with difference outside tolerance. -/
theorem c5_witness :
    RuleEngine.compare (Value.bool true) CompareOp.eq (Value.num 0) =
      false ∧
    RuleEngine.compare (Value.bool true) CompareOp.gt (Value.bool false) =
      false ∧
    RuleEngine.compare (Value.str "x") CompareOp.le (Value.str "x") =
      false ∧
    (RuleEngine.compare (Value.num 1) CompareOp.gt (Value.num 0) = true ∧
     RuleEngine.compare (Value.num 1) CompareOp.ge (Value.num 0) = true ∧
     RuleEngine.compare (Value.num 1) CompareOp.lt (Value.num 0) = false ∧
     RuleEngine.compare (Value.num 1) CompareOp.le (Value.num 0) = false) :=
  ⟨c5_compare_semantics.1 (Value.bool true) (Value.num 0) CompareOp.eq
      (by decide),
   c5_compare_semantics.2.1 true false CompareOp.gt (Or.inl rfl),
   c5_compare_semantics.2.2.1 "x" "x" CompareOp.le
      (Or.inr (Or.inr (Or.inr rfl))),
   (c5_compare_semantics.2.2.2 1 0).2.2.1 (by norm_num)⟩

/-- C6: `evaluate` is fail-closed: whenever the provider cannot resolve the
condition's signal at the type matching the expected value's tag the
condition evaluates to `false` (never an error), and a condition can only
evaluate to `true` when a read succeeding at the expected value's tag
compares true against the expected value. -/
theorem c6_evaluate_fail_closed (c : Condition) (sp : SignalProvider) :
    (resolvesAt sp c.signal c.value.tag = false →
      RuleEngine.evaluate c sp = false) ∧
    (RuleEngine.evaluate c sp = true →
      ∃ v, readAt sp c.signal c.value.tag = some v ∧
        RuleEngine.compare v c.op c.value = true) := by
  obtain ⟨sig, op, val⟩ := c
  cases val with
  | num x =>
    cases hn : sp.getNumber sig with
    | none =>
      have hev : RuleEngine.evaluate ⟨sig, op, Value.num x⟩ sp = false := by
        unfold RuleEngine.evaluate
        cases hb : sp.getBool sig <;> cases hs : sp.getString sig <;>
          simp [hn, hb, hs]
      constructor
      · intro _
        exact hev
      · intro h
        rw [hev] at h
        cases h
    | some n =>
      have hev : RuleEngine.evaluate ⟨sig, op, Value.num x⟩ sp =
          RuleEngine.compare (.num n) op (.num x) := by
        unfold RuleEngine.evaluate
        rw [hn]
      constructor
      · intro hres
        simp [resolvesAt, Value.tag, hn] at hres
      · intro h
        rw [hev] at h
        exact ⟨Value.num n, by simp [readAt, Value.tag, hn], h⟩
  | bool x =>
    cases hb : sp.getBool sig with
    | none =>
      have hev : RuleEngine.evaluate ⟨sig, op, Value.bool x⟩ sp = false := by
        unfold RuleEngine.evaluate
        cases hn : sp.getNumber sig <;> cases hs : sp.getString sig <;>
          simp [hn, hb, hs]
      constructor
      · intro _
        exact hev
      · intro h
        rw [hev] at h
        cases h
    | some b =>
      have hev : RuleEngine.evaluate ⟨sig, op, Value.bool x⟩ sp =
          RuleEngine.compare (.bool b) op (.bool x) := by
        unfold RuleEngine.evaluate
        cases hn : sp.getNumber sig <;> simp [hn, hb]
      constructor
      · intro hres
        simp [resolvesAt, Value.tag, hb] at hres
      · intro h
        rw [hev] at h
        exact ⟨Value.bool b, by simp [readAt, Value.tag, hb], h⟩
  | str x =>
    cases hs : sp.getString sig with
    | none =>
      have hev : RuleEngine.evaluate ⟨sig, op, Value.str x⟩ sp = false := by
        unfold RuleEngine.evaluate
        cases hn : sp.getNumber sig <;> cases hb : sp.getBool sig <;>
          simp [hn, hb, hs]
      constructor
      · intro _
        exact hev
      · intro h
        rw [hev] at h
        cases h
    | some s =>
      have hev : RuleEngine.evaluate ⟨sig, op, Value.str x⟩ sp =
          RuleEngine.compare (.str s) op (.str x) := by
        unfold RuleEngine.evaluate
        cases hn : sp.getNumber sig <;> cases hb : sp.getBool sig <;>
          simp [hn, hb, hs]
      constructor
      · intro hres
        simp [resolvesAt, Value.tag, hs] at hres
      · intro h
        rw [hev] at h
        exact ⟨Value.str s, by simp [readAt, Value.tag, hs], h⟩

/-- C6 witness: the guard condition `gear == "P"` under the provider that
resolves nothing evaluates to `false`. -/
theorem c6_witness :
    RuleEngine.evaluate
        { signal := "gear", op := CompareOp.eq, value := Value.str "P" }
        spEmpty = false :=
  (c6_evaluate_fail_closed
      { signal := "gear", op := CompareOp.eq, value := Value.str "P" }
      spEmpty).1 rfl

end Dbw
